import Mathlib

/-!
Verification of the mini-metro-maps DSL parser, network model and constraint
compiler (scripts/map/{parser,classes,ampl,util,naptan}.py).

Python strings are embedded as `List Char` (a Python `str` is a sequence of
characters); every `str` method used by the source is given a faithful,
executable counterpart below.  Exceptions raised by the source become
`Except`/`Option` results carrying exactly the data interpolated into the
corresponding message f-string.  Output written to the ampl `.mod` file is
collected as a list of emitted text lines.
-/

namespace MiniMetro

/-- Python strings, embedded as character lists. -/
abbrev Str := List Char

/-- Python `str.strip()`: remove leading and trailing whitespace. -/
def pyStrip (s : Str) : Str :=
  ((s.dropWhile Char.isWhitespace).reverse.dropWhile Char.isWhitespace).reverse

/-- Split on every occurrence of a predicate-satisfying character, keeping
empty groups (the shape shared by Python `str.split(sep)` for a one-character
separator). -/
def splitPred (p : Char → Bool) : Str → List Str
  | [] => [[]]
  | c :: rest =>
    if p c then [] :: splitPred p rest
    else
      match splitPred p rest with
      | [] => [[c]]
      | g :: gs => (c :: g) :: gs

/-- Python `s.split(",")` and friends: split on a separator character,
keeping empty pieces. -/
def pySplitChar (c : Char) (s : Str) : List Str :=
  splitPred (fun d => d = c) s

/-- Python `s.split()` (no argument): split on whitespace runs, dropping
empty pieces. -/
def pySplitWs (s : Str) : List Str :=
  (splitPred Char.isWhitespace s).filter (fun g => g ≠ [])

/-- Python `int(token)` on a whitespace-free token: optional sign followed by
at least one digit (exotic forms such as digit-group underscores are not used
by any input the source handles). -/
def parseDigits (s : Str) : Option Nat :=
  if s = [] then none
  else if s.all Char.isDigit then some (s.foldl (fun n c => 10 * n + (c.toNat - 48)) 0)
  else none

/-- Python `int(...)` over a token, returning `none` where Python raises
`ValueError`. -/
def pyInt (s : Str) : Option Int :=
  match s with
  | '-' :: rest => (parseDigits rest).map (fun n => -(n : Int))
  | '+' :: rest => (parseDigits rest).map (fun n => (n : Int))
  | _ => (parseDigits s).map (fun n => (n : Int))

/-- Python `str.replace(pat, repl)` (leftmost, non-overlapping), written with
a character-count fuel so that it is structurally recursive and hence
evaluates inside `decide`.  The fuel `s.length` is always sufficient because
each step consumes at least one character.  (For an empty pattern Python
would interleave `repl` everywhere; the source only ever replaces the
non-empty patterns `"up-left"` and `"down-left"`.) -/
def replaceFuel (pat repl : Str) : Nat → Str → Str
  | 0, s => s
  | _ + 1, [] => []
  | fuel + 1, c :: rest =>
    if pat ≠ [] ∧ pat.isPrefixOf (c :: rest) then
      repl ++ replaceFuel pat repl fuel ((c :: rest).drop pat.length)
    else
      c :: replaceFuel pat repl fuel rest

/-- Python `str.replace(pat, repl)`. -/
def pyReplace (s pat repl : Str) : Str :=
  replaceFuel pat repl s.length s

/-- util.consume_double_quoted: the text between the first two double quotes
and the text after the second quote; `none` where the Python raises
`ValueError` (fewer than two quotes). -/
def consume_double_quoted (s : Str) : Option (Str × Str) :=
  let after1 := s.dropWhile (fun c => c ≠ '"')
  match after1 with
  | [] => none
  | _ :: rest1 =>
    let after2 := rest1.dropWhile (fun c => c ≠ '"')
    match after2 with
    | [] => none
    | _ :: rest2 => some (rest1.takeWhile (fun c => c ≠ '"'), rest2)

/-! ## The network model (classes.py) -/

/-- classes.Station.  `solved_x`/`solved_y` exist but are populated only by
the external solver, never by this core. -/
structure Station where
  line : Str
  name : Str
  naptan : Str
  original_x : Int
  original_y : Int
  solved_x : Option Int := none
  solved_y : Option Int := none
deriving DecidableEq

/-- classes.Station.unique_id: `f"{line}_{naptan}"`, computed in
`Station.__init__`. -/
def Station.unique_id (s : Station) : Str :=
  s.line ++ '_' :: s.naptan

/-- classes.Line. `stations` is the insertion-ordered name → Station dict,
`edges` the set of (Station, Station) tuples, `curves` the list of
(Station, Station, curve-kind) triples. -/
structure Line where
  name : Str
  stations : List (Str × Station)
  edges : List (Station × Station)
  curves : List (Station × Station × Str)
deriving DecidableEq

/-- `Line.__init__`. -/
def Line.mk0 (name : Str) : Line :=
  { name := name, stations := [], edges := [], curves := [] }

/-- Python dict lookup (`d[k]` / `k in d`), over an insertion-ordered
association list. -/
def dictLookup {α : Type} : List (Str × α) → Str → Option α
  | [], _ => none
  | (k, v) :: rest, key => if k = key then some v else dictLookup rest key

/-- Python dict assignment `d[k] = v`: overwrite in place if the key exists
(keeping its position), else append. -/
def dictInsert {α : Type} : List (Str × α) → Str → α → List (Str × α)
  | [], key, v => [(key, v)]
  | (k, w) :: rest, key, v =>
    if k = key then (k, v) :: rest else (k, w) :: dictInsert rest key v

/-- Python `set.add` for the edge set: insert if not already present. -/
def setInsert {α : Type} [DecidableEq α] (l : List α) (x : α) : List α :=
  if x ∈ l then l else l ++ [x]

/-- Errors raised inside classes.py; each constructor carries exactly the
values interpolated into the corresponding `ValueError` f-string. -/
inductive NetError
  | stationNotFound (inputLineNo : Nat) (stationName : Str) (lineName : Str)
  | notConnected (inputLineNo : Nat) (stationName1 stationName2 : Str)
deriving DecidableEq

/-- classes.Line.add_station: unconditional dict assignment
`self.stations[station.name] = station` (no uniqueness check). -/
def Line.add_station (l : Line) (st : Station) : Line :=
  { l with stations := dictInsert l.stations st.name st }

/-- classes.Line.get_station. -/
def Line.get_station (l : Line) (station_name : Str) (input_line_number : Nat) :
    Except NetError Station :=
  match dictLookup l.stations station_name with
  | none => .error (.stationNotFound input_line_number station_name l.name)
  | some s => .ok s

/-- classes.Line.add_edge. -/
def Line.add_edge (l : Line) (station_name_1 station_name_2 : Str)
    (input_line_number : Nat) : Except NetError Line :=
  match dictLookup l.stations station_name_1 with
  | none => .error (.stationNotFound input_line_number station_name_1 l.name)
  | some s1 =>
    match dictLookup l.stations station_name_2 with
    | none => .error (.stationNotFound input_line_number station_name_2 l.name)
    | some s2 => .ok { l with edges := setInsert l.edges (s1, s2) }

/-- classes.Line.add_curve: both stations must exist and form an edge in
either orientation; the curve triple is then appended. -/
def Line.add_curve (l : Line) (station_name_1 station_name_2 curve_type : Str)
    (input_line_number : Nat) : Except NetError Line :=
  match dictLookup l.stations station_name_1 with
  | none => .error (.stationNotFound input_line_number station_name_1 l.name)
  | some s1 =>
    match dictLookup l.stations station_name_2 with
    | none => .error (.stationNotFound input_line_number station_name_2 l.name)
    | some s2 =>
      if (s1, s2) ∈ l.edges ∨ (s2, s1) ∈ l.edges then
        .ok { l with curves := l.curves ++ [(s1, s2, curve_type)] }
      else
        .error (.notConnected input_line_number station_name_1 station_name_2)

/-- Inner loop of classes.Line.has_orphan_stations: a station is an orphan
when no edge of the line mentions its name. -/
def stationIsOrphan (edges : List (Station × Station)) (st : Station) : Bool :=
  ! edges.any (fun e => decide (e.1.name = st.name) || decide (e.2.name = st.name))

/-- classes.Line.has_orphan_stations: first orphan in insertion order, if
any. -/
def Line.has_orphan_stations (l : Line) : Bool × Option Str :=
  match l.stations.find? (fun p => stationIsOrphan l.edges p.2) with
  | some p => (true, some p.2.name)
  | none => (false, none)

/-! ## The identifier provider (naptan.py) -/

/-- The name → naptan-id mapping built from naptan.json. -/
abbrev NaptanMap := List (Str × Str)

/-- naptan.NaptanReader.get_naptan, with the documented special cases for
stations that occupy two map positions under one public name.  `none` stands
for the `KeyError` Python raises (both the bare dict `KeyError` in the
special-case branches and the re-raised "No naptan entry" one). -/
def get_naptan (m : NaptanMap) (name : Str) : Option Str :=
  if name = "Euston (Charing Cross branch)".data then
    (dictLookup m "Euston".data).map (fun n => n ++ "_CC".data)
  else if name = "Euston (Bank branch)".data then
    (dictLookup m "Euston".data).map (fun n => n ++ "_B".data)
  else if name = "Edgware Road (Circle Line) w/ H&C".data then
    (dictLookup m "Edgware Road (Circle Line)".data).map (fun n => n ++ "_HC".data)
  else if name = "Edgware Road (Circle Line) w/ District".data then
    (dictLookup m "Edgware Road (Circle Line)".data).map (fun n => n ++ "_D".data)
  else
    dictLookup m name

/-! ## The DSL parser (parser.py) -/

/-- Errors raised by parser.py (plus `netError` for errors propagated out of
classes.py and `noNaptan` for the provider's `KeyError`).  Each constructor
carries exactly the data interpolated into the corresponding message:
in particular `lineRedefinition` carries only the line name (the source
message `"redefinition of line '{line_name}'."` has no line number), and
`lineKeyError` stands for the raw `KeyError` raised by `lines[current_line]`
when the current-line context names no real Line (the `"_MULTI"` sentinel). -/
inductive ParseError
  | noLineName (no : Nat) (text : Str)
  | lineRedefinition (name : Str)
  | beforeCurrentLine (no : Nat) (text : Str)
  | noQuotedStationName (no : Nat) (text : Str)
  | missingCoordinates (no : Nat) (text : Str)
  | coordinateNotInt (no : Nat) (text : Str)
  | noNaptan (name : Str)
  | lineKeyError (name : Str)
  | noQuotedStations (no : Nat) (text : Str)
  | fewerThanTwoStations (no : Nat) (text : Str)
  | noCurveType (no : Nat) (text : Str)
  | curveTypeIndexError
  | invalidCurveType (no : Nat) (text : Str)
  | notTwoStations (no : Nat) (text : Str)
  | netError (e : NetError)
  | unrecognized (no : Nat) (text : Str)
deriving DecidableEq

/-- The input line number interpolated into a classes.py error message. -/
def netErrorLineNo : NetError → Nat
  | .stationNotFound no _ _ => no
  | .notConnected no _ _ => no

/-- The 1-based source line number a parse diagnostic carries, if any.
`lineRedefinition` (message has no number), `noNaptan` (provider `KeyError`),
`lineKeyError` (raw dict `KeyError`) and `curveTypeIndexError` (raw
`IndexError`) carry none. -/
def errorLineNo : ParseError → Option Nat
  | .noLineName no _ => some no
  | .lineRedefinition _ => none
  | .beforeCurrentLine no _ => some no
  | .noQuotedStationName no _ => some no
  | .missingCoordinates no _ => some no
  | .coordinateNotInt no _ => some no
  | .noNaptan _ => none
  | .lineKeyError _ => none
  | .noQuotedStations no _ => some no
  | .fewerThanTwoStations no _ => some no
  | .noCurveType no _ => some no
  | .curveTypeIndexError => none
  | .invalidCurveType no _ => some no
  | .notTwoStations no _ => some no
  | .netError e => some (netErrorLineNo e)
  | .unrecognized no _ => some no

/-- parser.sanitize_line: drop everything from the first `#` on, then strip
surrounding whitespace. -/
def sanitize_line (s : Str) : Str :=
  pyStrip (s.takeWhile (fun c => c ≠ '#'))

/-- parser.create_new_line: the second whitespace token, truncated at a
colon, names the new Line; redefinition of an existing name fails (with a
message that carries no line number).  Returns the updated `lines` dict and
the created name. -/
def create_new_line (input_line_number : Nat) (input_file_line : Str)
    (lines : List (Str × Line)) : Except ParseError (List (Str × Line) × Str) :=
  match pySplitWs input_file_line with
  | [] => .error (.noLineName input_line_number input_file_line)
  | [_] => .error (.noLineName input_line_number input_file_line)
  | _ :: t1 :: _ =>
    let line_name := pyStrip (t1.takeWhile (fun c => c ≠ ':'))
    if (dictLookup lines line_name).isSome then
      .error (.lineRedefinition line_name)
    else
      .ok (dictInsert lines line_name (Line.mk0 line_name), line_name)

/-- parser.create_new_station.  The source calls
`removeprefix("station")`/`lstrip()`/`strip()` but discards every result
(strings are immutable in Python), so the full statement text flows on
unchanged; `consume_double_quoted` is unaffected because the keyword
contains no quote.  Python evaluates `int(tokens[0])` before indexing
`tokens[1]`, so a lone non-integer token reports the not-an-integer error. -/
def create_new_station (nm : NaptanMap) (input_line_number : Nat)
    (input_file_line : Str) (current_line : Option Str)
    (lines : List (Str × Line)) : Except ParseError (List (Str × Line)) :=
  match current_line with
  | none => .error (.beforeCurrentLine input_line_number input_file_line)
  | some cur =>
    match consume_double_quoted input_file_line with
    | none => .error (.noQuotedStationName input_line_number input_file_line)
    | some (station_name, rest) =>
      match pySplitWs rest with
      | [] => .error (.missingCoordinates input_line_number input_file_line)
      | t0 :: ts =>
        match pyInt t0 with
        | none => .error (.coordinateNotInt input_line_number input_file_line)
        | some x =>
          match ts with
          | [] => .error (.missingCoordinates input_line_number input_file_line)
          | t1 :: _ =>
            match pyInt t1 with
            | none => .error (.coordinateNotInt input_line_number input_file_line)
            | some y =>
              match get_naptan nm station_name with
              | none => .error (.noNaptan station_name)
              | some naptan =>
                match dictLookup lines cur with
                | none => .error (.lineKeyError cur)
                | some line =>
                  .ok (dictInsert lines cur
                    (line.add_station
                      { line := cur, name := station_name, naptan := naptan,
                        original_x := x, original_y := y }))

/-- The while loop of parser.add_edges: add one edge per consecutive pair of
names, mutating the Line as Python mutates `lines[current_line]`. -/
def edges_loop (input_line_number : Nat) : Line → Str → List Str → Except NetError Line
  | line, _, [] => .ok line
  | line, current_station, next_station :: rest =>
    match line.add_edge current_station next_station input_line_number with
    | .error e => .error e
    | .ok line' => edges_loop input_line_number line' next_station rest

/-- parser.add_edges (the `removeprefix`/`lstrip`/`strip` results are again
discarded by the source).  The `lines[current_line]` dict access happens on
the first loop iteration in Python; with at least two stations the loop runs
at least once, so looking the Line up before the loop is observationally
identical. -/
def add_edges (input_line_number : Nat) (input_file_line : Str)
    (current_line : Option Str) (lines : List (Str × Line)) :
    Except ParseError (List (Str × Line)) :=
  match current_line with
  | none => .error (.beforeCurrentLine input_line_number input_file_line)
  | some cur =>
    match consume_double_quoted input_file_line with
    | none => .error (.noQuotedStations input_line_number input_file_line)
    | some (stations_string, _) =>
      let stations := (pySplitChar ',' stations_string).map pyStrip
      if stations.length < 2 then
        .error (.fewerThanTwoStations input_line_number input_file_line)
      else
        match stations with
        | [] => .error (.fewerThanTwoStations input_line_number input_file_line)
        | s0 :: srest =>
          match dictLookup lines cur with
          | none => .error (.lineKeyError cur)
          | some line =>
            match edges_loop input_line_number line s0 srest with
            | .error e => .error (.netError e)
            | .ok line' => .ok (dictInsert lines cur line')

/-- The legal curve direction tokens. -/
def direction_tokens : List Str :=
  ["up".data, "down".data, "left".data, "right".data,
   "up-right".data, "up-left".data, "down-right".data, "down-left".data]

/-- parser.validate_curve_type.  `rest_tokens[0]` on an empty token list
raises an uncaught `IndexError` in Python (`curveTypeIndexError` here); this
is unreachable from `read_data` because sanitized statements never end in
whitespace. -/
def validate_curve_type (input_line_number : Nat) (rest : Str)
    (old_input_file_line : Str) : Except ParseError Str :=
  match pySplitWs rest with
  | [] => .error .curveTypeIndexError
  | curve_type :: _ =>
    if curve_type = "special".data then .ok curve_type
    else
      let curve_type_tokens := pySplitChar ',' curve_type
      if curve_type_tokens.length ≠ 2 ∨
          ¬ (∀ t ∈ curve_type_tokens, pyStrip t ∈ direction_tokens) then
        .error (.invalidCurveType input_line_number old_input_file_line)
      else
        .ok curve_type

/-- parser.add_curve. -/
def add_curve (input_line_number : Nat) (input_file_line : Str)
    (current_line : Option Str) (lines : List (Str × Line)) :
    Except ParseError (List (Str × Line)) :=
  match current_line with
  | none => .error (.beforeCurrentLine input_line_number input_file_line)
  | some cur =>
    match consume_double_quoted input_file_line with
    | none => .error (.noQuotedStations input_line_number input_file_line)
    | some (stations_string, rest) =>
      if rest = [] then .error (.noCurveType input_line_number input_file_line)
      else
        match validate_curve_type input_line_number rest input_file_line with
        | .error e => .error e
        | .ok curve_type =>
          let stations := (pySplitChar ',' stations_string).map pyStrip
          match stations with
          | [n1, n2] =>
            match dictLookup lines cur with
            | none => .error (.lineKeyError cur)
            | some line =>
              match line.add_curve n1 n2 curve_type input_line_number with
              | .error e => .error (.netError e)
              | .ok line' => .ok (dictInsert lines cur line')
          | _ => .error (.notTwoStations input_line_number input_file_line)

/-- A deferred constraint: raw statement text, the current-line context when
it was read (`none` before any `line` statement, `some "_MULTI"` after
`multi-line`), and the 1-based source line number. -/
abbrev Constraint := Str × Option Str × Nat

/-- Parser state threaded through the read_data loop: the current-line
selection, the global `lines` dict and the deferred `constraint_text_lines`. -/
structure PState where
  current : Option Str
  lines : List (Str × Line)
  constraints : List Constraint
deriving DecidableEq

/-- The six cardinal alignment keywords dispatched on in read_data. -/
def cardinal_keywords : List Str :=
  ["vertical".data, "horizontal".data, "up-right".data,
   "up-left".data, "down-right".data, "down-left".data]

/-- `input_file_line.startswith(tuple([...]))`. -/
def startsWithAny (s : Str) (ps : List Str) : Bool :=
  ps.any (fun p => p.isPrefixOf s)

/-- The normalization read_data applies to a cardinal constraint statement
before deferring it: textual replacement of `up-left` by `down-right`, then
of `down-left` by `up-right`, over the whole statement. -/
def normalize_cardinal (s : Str) : Str :=
  pyReplace (pyReplace s "up-left".data "down-right".data) "down-left".data "up-right".data

/-- One iteration of the read_data loop: sanitize, skip empties, dispatch by
leading keyword (the `no` argument is the already-incremented 1-based line
number). -/
def read_data_step (nm : NaptanMap) (no : Nat) (st : PState) (raw : Str) :
    Except ParseError PState :=
  let s := sanitize_line raw
  if s = [] then .ok st
  else if "line".data.isPrefixOf s then
    match create_new_line no s st.lines with
    | .error e => .error e
    | .ok (lines', name) => .ok { st with lines := lines', current := some name }
  else if "station".data.isPrefixOf s then
    match create_new_station nm no s st.current st.lines with
    | .error e => .error e
    | .ok lines' => .ok { st with lines := lines' }
  else if "edges".data.isPrefixOf s then
    match add_edges no s st.current st.lines with
    | .error e => .error e
    | .ok lines' => .ok { st with lines := lines' }
  else if "curve".data.isPrefixOf s then
    match add_curve no s st.current st.lines with
    | .error e => .error e
    | .ok lines' => .ok { st with lines := lines' }
  else if "multi-line".data.isPrefixOf s then
    .ok { st with current := some "_MULTI".data }
  else if startsWithAny s cardinal_keywords then
    .ok { st with constraints := st.constraints ++ [(normalize_cardinal s, st.current, no)] }
  else if "same-station".data.isPrefixOf s ∨ "equal".data.isPrefixOf s then
    .ok { st with constraints := st.constraints ++ [(s, st.current, no)] }
  else
    .error (.unrecognized no s)

/-- The read_data loop from line counter `no` onwards. -/
def read_data_from (nm : NaptanMap) (no : Nat) (st : PState) :
    List Str → Except ParseError PState
  | [] => .ok st
  | raw :: rest =>
    match read_data_step nm (no + 1) st raw with
    | .error e => .error e
    | .ok st' => read_data_from nm (no + 1) st' rest

/-- parser.read_data over the list of raw input lines (`input_line_number`
starts at 0 and is incremented before each line is processed). -/
def read_data (nm : NaptanMap) (input : List Str) : Except ParseError PState :=
  read_data_from nm 0 { current := none, lines := [], constraints := [] } input

/-- parser.check_no_orphans: the first line with an orphan aborts the run,
naming the Line and the orphan station. -/
def check_no_orphans : List (Str × Line) → Except (Str × Option Str) Unit
  | [] => .ok ()
  | (_, l) :: rest =>
    let r := l.has_orphan_stations
    if r.1 then .error (l.name, r.2) else check_no_orphans rest

/-! ## The constraint compiler (ampl.py) -/

/-- Errors raised while compiling constraints (ampl.py); `net` wraps
`get_station` failures, `lineKeyError` the raw `KeyError` of
`lines[network_line]`, `indexError` the raw `IndexError` of
`split(maxsplit=1)[0]` on an empty statement. -/
inductive AmplError
  | net (e : NetError)
  | lineKeyError (name : Option Str)
  | internalInvalid (no : Nat)
  | noQuotedStations (no : Nat)
  | fewerThanTwo (no : Nat)
  | internalInvalidText (no : Nat) (text : Str)
  | indexError
deriving DecidableEq

/-- ampl.write_vertical_constraint: the emitted `.mod` line. -/
def write_vertical_constraint (id1 id2 : Str) : Str :=
  "subject to vertical_".data ++ id1 ++ "_".data ++ id2 ++ ": SOLVED_X_COORDS[".data
    ++ id1 ++ "] = SOLVED_X_COORDS[".data ++ id2 ++ "];\n".data

/-- ampl.write_horizontal_constraint. -/
def write_horizontal_constraint (id1 id2 : Str) : Str :=
  "subject to horizontal_".data ++ id1 ++ "_".data ++ id2 ++ ": SOLVED_Y_COORDS[".data
    ++ id1 ++ "] = SOLVED_Y_COORDS[".data ++ id2 ++ "];\n".data

/-- ampl.write_rising_diagonal_constraint: (X₁ − X₂) = −(Y₁ − Y₂). -/
def write_rising_diagonal_constraint (id1 id2 : Str) : Str :=
  "subject to up_right_".data ++ id1 ++ "_".data ++ id2 ++ ": SOLVED_X_COORDS[".data
    ++ id1 ++ "] - SOLVED_X_COORDS[".data ++ id2 ++ "] = -(SOLVED_Y_COORDS[".data
    ++ id1 ++ "] - SOLVED_Y_COORDS[".data ++ id2 ++ "]);\n".data

/-- ampl.write_falling_diagonal_constraint: (X₁ − X₂) = (Y₁ − Y₂). -/
def write_falling_diagonal_constraint (id1 id2 : Str) : Str :=
  "subject to down_right_".data ++ id1 ++ "_".data ++ id2 ++ ": SOLVED_X_COORDS[".data
    ++ id1 ++ "] - SOLVED_X_COORDS[".data ++ id2 ++ "] = SOLVED_Y_COORDS[".data
    ++ id1 ++ "] - SOLVED_Y_COORDS[".data ++ id2 ++ "];\n".data

/-- ampl.write_cardinal_direction_constraint.  For the `"_MULTI"` sentinel
the source is `return  # todo`: it silently writes nothing and reports no
error. -/
def write_cardinal_direction_constraint (station_name_1 station_name_2
    constraint_type : Str) (lines : List (Str × Line))
    (network_line : Option Str) (input_line_number : Nat) :
    Except AmplError (List Str) :=
  if network_line = some "_MULTI".data then .ok []
  else
    match network_line with
    | none => .error (.lineKeyError none)
    | some nl =>
      match dictLookup lines nl with
      | none => .error (.lineKeyError (some nl))
      | some line =>
        match line.get_station station_name_1 input_line_number with
        | .error e => .error (.net e)
        | .ok s1 =>
          match line.get_station station_name_2 input_line_number with
          | .error e => .error (.net e)
          | .ok s2 =>
            if constraint_type = "vertical".data then
              .ok [write_vertical_constraint s1.unique_id s2.unique_id]
            else if constraint_type = "horizontal".data then
              .ok [write_horizontal_constraint s1.unique_id s2.unique_id]
            else if constraint_type = "up-right".data then
              .ok [write_rising_diagonal_constraint s1.unique_id s2.unique_id]
            else if constraint_type = "down-right".data then
              .ok [write_falling_diagonal_constraint s1.unique_id s2.unique_id]
            else
              .error (.internalInvalid input_line_number)

/-- The while loop of ampl.process_cardinal_direction_constraint, collecting
the emitted lines in order. -/
def cardinal_loop (constraint_type : Str) (lines : List (Str × Line))
    (network_line : Option Str) (input_line_number : Nat) :
    Str → List Str → Except AmplError (List Str)
  | _, [] => .ok []
  | current_station, next_station :: rest =>
    match write_cardinal_direction_constraint current_station next_station
        constraint_type lines network_line input_line_number with
    | .error e => .error e
    | .ok out =>
      match cardinal_loop constraint_type lines network_line input_line_number
          next_station rest with
      | .error e => .error e
      | .ok outs => .ok (out ++ outs)

/-- ampl.process_cardinal_direction_constraint. -/
def process_cardinal_direction_constraint (constraint_type : Str)
    (lines : List (Str × Line)) (input_line_rest : Str)
    (network_line : Option Str) (input_line_number : Nat) :
    Except AmplError (List Str) :=
  match consume_double_quoted input_line_rest with
  | none => .error (.noQuotedStations input_line_number)
  | some (stations_string, _) =>
    let stations := (pySplitChar ',' stations_string).map pyStrip
    if stations.length < 2 then .error (.fewerThanTwo input_line_number)
    else
      match stations with
      | [] => .error (.fewerThanTwo input_line_number)
      | s0 :: srest =>
        cardinal_loop constraint_type lines network_line input_line_number s0 srest

/-- ampl.process_constraint.  The source's `lstrip`/`removeprefix`/`strip`
results are discarded, so the full statement text is handed on; for
`same-station` and `equal` the source is `pass  # todo` — nothing is emitted
and no error raised. -/
def process_constraint (lines : List (Str × Line)) (input_file_line : Str)
    (network_line : Option Str) (input_line_number : Nat) :
    Except AmplError (List Str) :=
  match pySplitWs input_file_line with
  | [] => .error .indexError
  | constraint_type :: _ =>
    if constraint_type = "vertical".data ∨ constraint_type = "horizontal".data ∨
        constraint_type = "up-right".data ∨ constraint_type = "down-right".data then
      process_cardinal_direction_constraint constraint_type lines input_file_line
        network_line input_line_number
    else if constraint_type = "same-station".data then .ok []
    else if constraint_type = "equal".data then .ok []
    else .error (.internalInvalidText input_line_number input_file_line)

/-- ampl.process_constraints, concatenating the emitted lines. -/
def process_constraints (lines : List (Str × Line)) :
    List Constraint → Except AmplError (List Str)
  | [] => .ok []
  | (s, nl, no) :: rest =>
    match process_constraint lines s nl no with
    | .error e => .error e
    | .ok out =>
      match process_constraints lines rest with
      | .error e => .error e
      | .ok outs => .ok (out ++ outs)

/-- The station-identifier domain written by ampl.write_initial_model: every
station's quoted unique id, lines in dict order, stations in insertion
order. -/
def station_identifiers : List (Str × Line) → List Str
  | [] => []
  | (_, l) :: rest =>
    l.stations.map (fun q => '"' :: (q.2.unique_id ++ ['"'])) ++ station_identifiers rest

/-! ## The pipeline (generate_map.py) -/

/-- A failure anywhere in the pipeline. -/
inductive Err
  | parse (e : ParseError)
  | orphan (lineName : Str) (stationName : Option Str)
  | ampl (e : AmplError)
deriving DecidableEq

/-- parser.parse_data: read the whole input, then run the orphan check. -/
def parse_data (nm : NaptanMap) (input : List Str) :
    Except Err (List (Str × Line) × List Constraint) :=
  match read_data nm input with
  | .error e => .error (.parse e)
  | .ok st =>
    match check_no_orphans st.lines with
    | .error (l, s) => .error (.orphan l s)
    | .ok () => .ok (st.lines, st.constraints)

/-- ampl.write_ampl_files, as the pair (identifier preamble, emitted
constraint lines). -/
def write_ampl_output (lines : List (Str × Line)) (constraints : List Constraint) :
    Except AmplError (List Str × List Str) :=
  match process_constraints lines constraints with
  | .error e => .error e
  | .ok outs => .ok (station_identifiers lines, outs)

/-- generate_map.main: parse, validate, then compile. -/
def generate_map (nm : NaptanMap) (input : List Str) :
    Except Err (List Str × List Str) :=
  match parse_data nm input with
  | .error e => .error e
  | .ok (lines, cs) =>
    match write_ampl_output lines cs with
    | .error e => .error (.ampl e)
    | .ok out => .ok out

/-! ## Statement-forming helpers -/

/-- Decidable equality for `Except`, so that concrete runs of the embedded
code can be checked by `decide`. -/
def exceptDecEq {ε α : Type} [DecidableEq ε] [DecidableEq α] : DecidableEq (Except ε α)
  | .error e, .error f =>
    if h : e = f then .isTrue (by rw [h]) else .isFalse (fun hh => h (Except.error.inj hh))
  | .error _, .ok _ => .isFalse (fun hh => Except.noConfusion hh)
  | .ok _, .error _ => .isFalse (fun hh => Except.noConfusion hh)
  | .ok a, .ok b =>
    if h : a = b then .isTrue (by rw [h]) else .isFalse (fun hh => h (Except.ok.inj hh))

instance {ε α : Type} [DecidableEq ε] [DecidableEq α] : DecidableEq (Except ε α) :=
  exceptDecEq

instance : DecidableEq (List (Str × Line) × List Constraint) :=
  instDecidableEqProd

/-- The consecutive pairs of a list: `[a, b, c] ↦ [(a, b), (b, c)]` — the
pairs visited by the chain loops of add_edges and
process_cardinal_direction_constraint. -/
def consecutive_pairs {α : Type} : List α → List (α × α)
  | a :: b :: rest => (a, b) :: consecutive_pairs (b :: rest)
  | _ => []

/-- The `.mod` line write_cardinal_direction_constraint emits for a given
keyword and pair of station identifiers (the keyword is one of the four the
compiler dispatches on). -/
def cardinal_form (constraint_type id1 id2 : Str) : Str :=
  if constraint_type = "vertical".data then write_vertical_constraint id1 id2
  else if constraint_type = "horizontal".data then write_horizontal_constraint id1 id2
  else if constraint_type = "up-right".data then write_rising_diagonal_constraint id1 id2
  else write_falling_diagonal_constraint id1 id2

/-- The unique id of the station a name resolves to on a line (defaulting to
the empty string; only used under hypotheses that make every lookup
succeed). -/
def uidOf (l : Line) (n : Str) : Str :=
  ((dictLookup l.stations n).map Station.unique_id).getD []

/-- The station a name resolves to on a line (with a dummy default; only
used under hypotheses that make every lookup succeed). -/
def stationOf (l : Line) (n : Str) : Station :=
  (dictLookup l.stations n).getD
    { line := [], name := [], naptan := [], original_x := 0, original_y := 0 }

/-! ## Concrete fixtures for witnesses and counterexamples -/

/-- A small naptan map for concrete runs. -/
def nmEx : NaptanMap :=
  [("A".data, "X".data), ("B".data, "Y".data), ("C".data, "Z".data)]

/-- Station A of the fixture line `l1`. -/
def stA : Station :=
  { line := "l1".data, name := "A".data, naptan := "X".data, original_x := 0, original_y := 0 }

/-- Station B of the fixture line `l1`. -/
def stB : Station :=
  { line := "l1".data, name := "B".data, naptan := "Y".data, original_x := 1, original_y := 1 }

/-- Station C of the fixture line `l1`. -/
def stC : Station :=
  { line := "l1".data, name := "C".data, naptan := "Z".data, original_x := 2, original_y := 2 }

/-- A fixture line with stations A, B, C and the single edge A–B (so C is an
orphan). -/
def lineEx : Line :=
  { name := "l1".data,
    stations := [("A".data, stA), ("B".data, stB), ("C".data, stC)],
    edges := [(stA, stB)],
    curves := [] }

/-- The fixture `lines` dict. -/
def linesEx : List (Str × Line) := [("l1".data, lineEx)]

/-- Station A as re-declared with coordinates 3 4 (the overwriting second
declaration of the C3 counterexample). -/
def stA34 : Station :=
  { line := "l1".data, name := "A".data, naptan := "X".data, original_x := 3, original_y := 4 }

/-- The identifier-collision fixture: line `a` (no underscore in the naptan
map entry is required; the id `a_b_c` arises as `a` + `_` + `b_c`). -/
def nmC8 : NaptanMap := [("S1".data, "b_c".data), ("S2".data, "c".data)]

/-- The identifier-collision input: station S1 on line `a` (naptan `b_c`)
and station S2 on line `a_b` (naptan `c`) both get unique id `a_b_c`.
Self-loop edges keep both stations out of the orphan check. -/
def inputC8 : List Str :=
  ["line a".data, "station \"S1\" 0 0".data, "edges \"S1, S1\"".data,
   "line a_b".data, "station \"S2\" 0 0".data, "edges \"S2, S2\"".data]

/-- Station S1 of the collision fixture. -/
def stS1 : Station :=
  { line := "a".data, name := "S1".data, naptan := "b_c".data, original_x := 0, original_y := 0 }

/-- Station S2 of the collision fixture. -/
def stS2 : Station :=
  { line := "a_b".data, name := "S2".data, naptan := "c".data, original_x := 0, original_y := 0 }

/-- The `lines` dict the collision input parses to. -/
def linesC8 : List (Str × Line) :=
  [("a".data,
    { name := "a".data, stations := [("S1".data, stS1)], edges := [(stS1, stS1)], curves := [] }),
   ("a_b".data,
    { name := "a_b".data, stations := [("S2".data, stS2)], edges := [(stS2, stS2)], curves := [] })]

end MiniMetro

namespace MiniMetro

theorem dictLookup_dictInsert_self {α : Type} (d : List (Str × α)) (k : Str) (v : α) :
    dictLookup (dictInsert d k v) k = some v := by
  induction d with
  | nil => simp [dictInsert, dictLookup]
  | cons p rest ih =>
    obtain ⟨k1, w1⟩ := p
    by_cases h : k1 = k
    · simp [dictInsert, dictLookup, h]
    · simp [dictInsert, dictLookup, h, ih]

theorem dictInsert_dictInsert_same {α : Type} (d : List (Str × α)) (k : Str) (v w : α) :
    dictInsert (dictInsert d k v) k w = dictInsert d k w := by
  induction d with
  | nil => simp [dictInsert]
  | cons p rest ih =>
    obtain ⟨k1, w1⟩ := p
    by_cases h : k1 = k
    · simp [dictInsert, h]
    · simp [dictInsert, h, ih]

theorem mem_setInsert {α : Type} [DecidableEq α] (l : List α) (x y : α) :
    x ∈ setInsert l y ↔ x ∈ l ∨ x = y := by
  unfold setInsert
  by_cases h : y ∈ l
  · simp only [if_pos h]
    constructor
    · exact Or.inl
    · rintro (hx | rfl)
      · exact hx
      · exact h
  · simp [if_neg h]

/-- C7: a `curve` declaration whose two station names resolve on the Line succeeds
if and only if the two stations already form a declared edge in either
orientation; on failure a not-connected StructuralError is raised, and on
success the only observable state change is the curve triple appended to the
Line's curve list. -/
theorem add_curve_requires_existing_edge (l : Line) (n1 n2 ctype : Str) (no : Nat)
    (s1 s2 : Station)
    (h1 : dictLookup l.stations n1 = some s1) (h2 : dictLookup l.stations n2 = some s2) :
    (((s1, s2) ∈ l.edges ∨ (s2, s1) ∈ l.edges) →
        l.add_curve n1 n2 ctype no = .ok { l with curves := l.curves ++ [(s1, s2, ctype)] })
    ∧ (¬ ((s1, s2) ∈ l.edges ∨ (s2, s1) ∈ l.edges) →
        l.add_curve n1 n2 ctype no = .error (.notConnected no n1 n2)) := by
  unfold Line.add_curve
  rw [h1, h2]
  constructor <;> intro h <;> simp [h]

theorem add_curve_requires_existing_edge_witness :
    lineEx.add_curve "A".data "B".data "special".data 9
      = .ok { lineEx with curves := [(stA, stB, "special".data)] } := by
  have h := add_curve_requires_existing_edge lineEx "A".data "B".data "special".data 9
    stA stB (by decide) (by decide)
  exact (h.1 (by decide)).trans (by decide)

/-- C3 counterexample: an input declaring two Stations with display name `A` on
the same Line parses to completion with no error — the second declaration
(coordinates 3 4) silently overwrites the first, refuting the claim that the
parse fails with a UniquenessError when the second Station is created. -/
theorem duplicate_station_name_overwrites_cex :
    read_data nmEx ["line l1".data, "station \"A\" 1 2".data, "station \"A\" 3 4".data]
      = .ok { current := some "l1".data,
              lines := [("l1".data,
                { name := "l1".data, stations := [("A".data, stA34)],
                  edges := [], curves := [] })],
              constraints := [] } := by decide

/-- C3 amended: `Line.add_station` is an unchecked dict assignment: re-adding a
station under an existing display name silently replaces the previous Station
(last declaration wins) and never fails; names on different Lines remain
independent since each Line holds its own dict. -/
theorem add_station_overwrites_previous (l : Line) (s1 s2 : Station)
    (h : s1.name = s2.name) :
    ((l.add_station s1).add_station s2).stations = dictInsert l.stations s2.name s2
    ∧ dictLookup ((l.add_station s1).add_station s2).stations s2.name = some s2 := by
  unfold Line.add_station
  simp only [h]
  exact ⟨dictInsert_dictInsert_same l.stations s2.name s1 s2,
    by rw [dictInsert_dictInsert_same]; exact dictLookup_dictInsert_self _ _ _⟩

theorem add_station_overwrites_previous_witness :
    ((lineEx.add_station stA).add_station stA34).stations
        = dictInsert lineEx.stations "A".data stA34
    ∧ dictLookup ((lineEx.add_station stA).add_station stA34).stations "A".data
        = some stA34 := by
  have h := add_station_overwrites_previous lineEx stA stA34 (by decide)
  exact h

end MiniMetro

namespace MiniMetro

theorem cardinal_loop_multi (ct : Str) (lines : List (Str × Line)) (no : Nat) :
    ∀ (rest : List Str) (s0 : Str),
      cardinal_loop ct lines (some "_MULTI".data) no s0 rest = .ok [] := by
  intro rest
  induction rest with
  | nil => intro s0; rfl
  | cons b t ih =>
    intro s0
    simp [cardinal_loop, write_cardinal_direction_constraint, ih]

/-- C2 counterexample: a cardinal constraint whose Line context is the
multi-line sentinel, and `same-station`/`equal` constraints, all compile to
`.ok []` — nothing is emitted and no error of any kind is signalled,
refuting the claim that an UnsupportedError surfaces. -/
theorem unsupported_constructs_silently_skipped_cex :
    process_constraint linesEx "vertical \"A, B\"".data (some "_MULTI".data) 7 = .ok []
    ∧ process_constraint linesEx "same-station \"A, B\"".data (some "l1".data) 8 = .ok []
    ∧ process_constraint linesEx "equal \"A, B\"".data (some "l1".data) 9 = .ok [] := by
  decide

/-- C2 amended: every syntactically accepted but not-yet-compilable construct
reaching the compiler — a well-formed cardinal-direction constraint in
`"_MULTI"` context, or any `same-station`/`equal` constraint — is a silent
no-op: `process_constraint` returns success with no emitted output (the
source's `return`/`pass` todo branches), rather than signalling
UnsupportedError. -/
theorem unsupported_constructs_are_silent_noops (lines : List (Str × Line)) (s : Str)
    (nl : Option Str) (no : Nat)
    (h : (pySplitWs s).headD [] = "same-station".data
       ∨ (pySplitWs s).headD [] = "equal".data
       ∨ (((pySplitWs s).headD [] = "vertical".data
            ∨ (pySplitWs s).headD [] = "horizontal".data
            ∨ (pySplitWs s).headD [] = "up-right".data
            ∨ (pySplitWs s).headD [] = "down-right".data)
          ∧ nl = some "_MULTI".data
          ∧ ∃ chain t, consume_double_quoted s = some (chain, t)
              ∧ 2 ≤ ((pySplitChar ',' chain).map pyStrip).length)) :
    process_constraint lines s nl no = .ok [] := by
  cases hs : pySplitWs s with
  | nil =>
    rw [hs] at h
    rcases h with h | h | ⟨h, _⟩ <;> exact absurd h (by decide)
  | cons tok toks =>
    rw [hs] at h
    simp only [List.headD_cons] at h
    simp only [process_constraint, hs]
    rcases h with rfl | rfl | ⟨hct, hnl, chain, t, hq, hlen⟩
    · simp
    · simp
    · subst hnl
      have hcond : tok = "vertical".data ∨ tok = "horizontal".data
          ∨ tok = "up-right".data ∨ tok = "down-right".data := hct
      rw [if_pos hcond]
      unfold process_cardinal_direction_constraint
      rw [hq]
      have hlt : ¬ ((pySplitChar ',' chain).map pyStrip).length < 2 := by omega
      simp only [if_neg hlt]
      cases hcs : (pySplitChar ',' chain).map pyStrip with
      | nil => rw [hcs] at hlen; simp at hlen
      | cons s0 srest => exact cardinal_loop_multi tok lines no srest s0

theorem unsupported_constructs_are_silent_noops_witness :
    process_constraint linesEx "vertical \"A, C\"".data (some "_MULTI".data) 12 = .ok [] := by
  exact unsupported_constructs_are_silent_noops linesEx _ _ 12
    (Or.inr (Or.inr ⟨Or.inl (by decide), rfl, "A, C".data, [],
      by decide, by decide⟩))

end MiniMetro

namespace MiniMetro

/-- C10: an `edges` statement that repeats the same station name consecutively
(`edges "A, A"`) succeeds and records the self-loop pair (A, A) in the Line's
edge set, and thereafter that station counts as non-orphan in the degree ≥ 1
validation even with no edge to any other station. -/
theorem self_loop_edge_prevents_orphan (no : Nat) (s chain t n cur : Str)
    (lines : List (Str × Line)) (line : Line) (st : Station)
    (hq : consume_double_quoted s = some (chain, t))
    (hchain : (pySplitChar ',' chain).map pyStrip = [n, n])
    (hlook : dictLookup lines cur = some line)
    (hst : dictLookup line.stations n = some st) :
    add_edges no s (some cur) lines
      = .ok (dictInsert lines cur { line with edges := setInsert line.edges (st, st) })
    ∧ stationIsOrphan (setInsert line.edges (st, st)) st = false := by
  constructor
  · simp [add_edges, hq, hchain, hlook, edges_loop, Line.add_edge, hst]
  · have hmem : (st, st) ∈ setInsert line.edges (st, st) := by
      by_cases h : (st, st) ∈ line.edges <;> simp [setInsert, h]
    simp only [stationIsOrphan, Bool.not_eq_false', List.any_eq_true]
    exact ⟨(st, st), hmem, by simp⟩

end MiniMetro

namespace MiniMetro

theorem self_loop_edge_prevents_orphan_witness :
    add_edges 4 "edges \"C, C\"".data (some "l1".data) linesEx
      = .ok (dictInsert linesEx "l1".data
          { lineEx with edges := setInsert lineEx.edges (stC, stC) })
    ∧ stationIsOrphan (setInsert lineEx.edges (stC, stC)) stC = false := by
  exact self_loop_edge_prevents_orphan 4 _ "C, C".data [] "C".data "l1".data
    linesEx lineEx stC (by decide) (by decide) (by decide) (by decide)

theorem consecutive_pairs_length {α : Type} (l : List α) :
    (consecutive_pairs l).length = l.length - 1 := by
  induction l with
  | nil => rfl
  | cons a t ih =>
    cases t with
    | nil => rfl
    | cons b t2 =>
      simp only [consecutive_pairs, List.length_cons] at *
      omega

theorem edges_loop_ok (no : Nat) (base : Line) :
    ∀ (rest : List Str) (s0 : Str) (L : Line),
      L.stations = base.stations → L.name = base.name → L.curves = base.curves →
      (dictLookup base.stations s0).isSome →
      (∀ n ∈ rest, (dictLookup base.stations n).isSome) →
      ∃ L', edges_loop no L s0 rest = .ok L' ∧
        L'.stations = base.stations ∧ L'.name = base.name ∧ L'.curves = base.curves ∧
        ∀ e, e ∈ L'.edges ↔ e ∈ L.edges ∨
          e ∈ (consecutive_pairs (s0 :: rest)).map
                (fun p => (stationOf base p.1, stationOf base p.2)) := by
  intro rest
  induction rest with
  | nil =>
    intro s0 L hs hn hc _ _
    exact ⟨L, rfl, hs, hn, hc, fun e => by simp [consecutive_pairs]⟩
  | cons b t ih =>
    intro s0 L hs hn hc h0 hrest
    obtain ⟨s1, hs1⟩ := Option.isSome_iff_exists.mp h0
    obtain ⟨s2, hs2⟩ := Option.isSome_iff_exists.mp (hrest b (by simp))
    have hadd : L.add_edge s0 b no
        = .ok { L with edges := setInsert L.edges (s1, s2) } := by
      unfold Line.add_edge
      rw [hs, hs1, hs2]
    have hloop : edges_loop no L s0 (b :: t)
        = edges_loop no { L with edges := setInsert L.edges (s1, s2) } b t := by
      simp [edges_loop, hadd]
    obtain ⟨L', hL', h1, h2, h3, h4⟩ := ih b { L with edges := setInsert L.edges (s1, s2) }
      hs hn hc (hrest b (by simp)) (fun n hn2 => hrest n (by simp [hn2]))
    refine ⟨L', hloop.trans hL', h1, h2, h3, fun e => ?_⟩
    rw [h4 e]
    simp only [mem_setInsert]
    have hst1 : stationOf base s0 = s1 := by simp [stationOf, hs1]
    have hst2 : stationOf base b = s2 := by simp [stationOf, hs2]
    constructor
    · rintro ((he | rfl) | he)
      · exact Or.inl he
      · refine Or.inr ?_
        simp [consecutive_pairs, hst1, hst2]
      · refine Or.inr ?_
        simp only [consecutive_pairs, List.map_cons, List.mem_cons]
        exact Or.inr he
    · rintro (he | he)
      · exact Or.inl (Or.inl he)
      · simp only [consecutive_pairs, List.map_cons, List.mem_cons] at he
        rcases he with rfl | he
        · exact Or.inl (Or.inr (by rw [hst1, hst2]))
        · exact Or.inr he

end MiniMetro

namespace MiniMetro

theorem edges_loop_missing_errors (no : Nat) (base : Line) :
    ∀ (rest : List Str) (s0 : Str) (L : Line),
      rest ≠ [] → L.stations = base.stations →
      (∃ n ∈ s0 :: rest, dictLookup base.stations n = none) →
      ∃ e, edges_loop no L s0 rest = .error e := by
  intro rest
  induction rest with
  | nil => intro s0 L h; exact absurd rfl h
  | cons b t ih =>
    intro s0 L _ hs hmiss
    cases h0 : dictLookup base.stations s0 with
    | none =>
      refine ⟨.stationNotFound no s0 L.name, ?_⟩
      simp [edges_loop, Line.add_edge, hs, h0]
    | some s1 =>
      cases hb : dictLookup base.stations b with
      | none =>
        refine ⟨.stationNotFound no b L.name, ?_⟩
        simp [edges_loop, Line.add_edge, hs, h0, hb]
      | some s2 =>
        have hadd : L.add_edge s0 b no
            = .ok { L with edges := setInsert L.edges (s1, s2) } := by
          unfold Line.add_edge
          rw [hs, h0, hb]
        have ht : t ≠ [] := by
          rintro rfl
          rcases hmiss with ⟨n, hn, hnone⟩
          simp only [List.mem_cons, List.mem_singleton, List.not_mem_nil] at hn
          rcases hn with rfl | rfl | h
          · rw [hnone] at h0; exact Option.noConfusion h0
          · rw [hnone] at hb; exact Option.noConfusion hb
          · exact h.elim
        have hmiss' : ∃ n ∈ b :: t, dictLookup base.stations n = none := by
          rcases hmiss with ⟨n, hn, hnone⟩
          simp only [List.mem_cons] at hn
          rcases hn with rfl | hn
          · rw [hnone] at h0; exact Option.noConfusion h0
          · exact ⟨n, List.mem_cons.mpr hn, hnone⟩
        obtain ⟨e, he⟩ := ih b { L with edges := setInsert L.edges (s1, s2) } ht hs hmiss'
        exact ⟨e, by simp [edges_loop, hadd, he]⟩

/-- C5: an `edges` statement whose quoted chain lists k ≥ 2 station names all
declared on the current Line adds exactly the k−1 consecutive pairwise edges
to that Line's edge set (stations, name and curves unchanged); a single-name
chain fails with the fewer-than-two-stations StructuralError; a chain
referencing any undeclared name fails with a station-not-found error. -/
theorem edges_statement_adds_consecutive_edges (no : Nat) (s chain t cur : Str)
    (lines : List (Str × Line)) (line : Line) (names : List Str)
    (hq : consume_double_quoted s = some (chain, t))
    (hnames : names = (pySplitChar ',' chain).map pyStrip)
    (hlook : dictLookup lines cur = some line) :
    (2 ≤ names.length → (∀ n ∈ names, (dictLookup line.stations n).isSome) →
      ∃ line', add_edges no s (some cur) lines = .ok (dictInsert lines cur line') ∧
        line'.stations = line.stations ∧ line'.name = line.name ∧
        line'.curves = line.curves ∧
        ∀ e, e ∈ line'.edges ↔ e ∈ line.edges ∨
          e ∈ (consecutive_pairs names).map
                (fun p => (stationOf line p.1, stationOf line p.2)))
    ∧ (names.length < 2 →
        add_edges no s (some cur) lines = .error (.fewerThanTwoStations no s))
    ∧ ((∃ n ∈ names, dictLookup line.stations n = none) → 2 ≤ names.length →
        ∃ e, add_edges no s (some cur) lines = .error (.netError e)) := by
  refine ⟨?_, ?_, ?_⟩
  · intro hlen hall
    cases hns : names with
    | nil => rw [hns] at hlen; simp at hlen
    | cons s0 srest =>
      rw [hns] at hlen hall
      have hlt : ¬ (s0 :: srest).length < 2 := by omega
      obtain ⟨L', hL', h1, h2, h3, h4⟩ := edges_loop_ok no line srest s0 line rfl rfl rfl
        (hall s0 (by simp)) (fun n hn => hall n (by simp [hn]))
      refine ⟨L', ?_, h1, h2, h3, fun e => (h4 e)⟩
      simp only [add_edges, hq, ← hnames, hns, if_neg hlt, hlook, hL']
  · intro hlen
    cases hns : names with
    | nil =>
      simp only [add_edges, hq, ← hnames, hns]
      simp
    | cons s0 srest =>
      rw [hns] at hlen
      simp only [add_edges, hq, ← hnames, hns, if_pos hlen]
  · intro hmiss hlen
    cases hns : names with
    | nil => rw [hns] at hlen; simp at hlen
    | cons s0 srest =>
      rw [hns] at hlen hmiss
      have hlt : ¬ (s0 :: srest).length < 2 := by omega
      have hne : srest ≠ [] := by
        rintro rfl
        simp at hlen
      obtain ⟨e, he⟩ := edges_loop_missing_errors no line srest s0 line hne rfl hmiss
      refine ⟨e, ?_⟩
      simp only [add_edges, hq, ← hnames, hns, if_neg hlt, hlook, he]

end MiniMetro

namespace MiniMetro

theorem edges_statement_adds_consecutive_edges_witness :
    ∃ line', add_edges 5 "edges \"A, B, C\"".data (some "l1".data) linesEx
        = .ok (dictInsert linesEx "l1".data line') ∧
      line'.stations = lineEx.stations ∧ line'.name = lineEx.name ∧
      line'.curves = lineEx.curves ∧
      ∀ e, e ∈ line'.edges ↔ e ∈ lineEx.edges ∨
        e ∈ (consecutive_pairs ["A".data, "B".data, "C".data]).map
              (fun p => (stationOf lineEx p.1, stationOf lineEx p.2)) := by
  exact (edges_statement_adds_consecutive_edges 5 _ "A, B, C".data [] "l1".data
    linesEx lineEx ["A".data, "B".data, "C".data]
    (by decide) (by decide) (by decide)).1 (by decide) (by decide)

theorem cardinal_loop_ok (ct : Str) (lines : List (Str × Line)) (L : Str) (line : Line)
    (no : Nat)
    (hct : ct = "vertical".data ∨ ct = "horizontal".data ∨ ct = "up-right".data
      ∨ ct = "down-right".data)
    (hL : L ≠ "_MULTI".data) (hlook : dictLookup lines L = some line) :
    ∀ (rest : List Str) (s0 : Str),
      (dictLookup line.stations s0).isSome →
      (∀ n ∈ rest, (dictLookup line.stations n).isSome) →
      cardinal_loop ct lines (some L) no s0 rest
        = .ok ((consecutive_pairs (s0 :: rest)).map
            (fun p => cardinal_form ct (uidOf line p.1) (uidOf line p.2))) := by
  intro rest
  induction rest with
  | nil => intro s0 _ _; simp [cardinal_loop, consecutive_pairs]
  | cons b tl ih =>
    intro s0 h0 hrest
    obtain ⟨s1, hs1⟩ := Option.isSome_iff_exists.mp h0
    obtain ⟨s2, hs2⟩ := Option.isSome_iff_exists.mp (hrest b (by simp))
    have hnm : ¬ (some L = some "_MULTI".data) := by
      intro hcon
      exact hL (Option.some.inj hcon)
    have hwrite : write_cardinal_direction_constraint s0 b ct lines (some L) no
        = .ok [cardinal_form ct (uidOf line s0) (uidOf line b)] := by
      unfold write_cardinal_direction_constraint
      rw [if_neg hnm]
      simp only [hlook, Line.get_station, hs1, hs2]
      have hu1 : uidOf line s0 = s1.unique_id := by simp [uidOf, hs1]
      have hu2 : uidOf line b = s2.unique_id := by simp [uidOf, hs2]
      rcases hct with rfl | rfl | rfl | rfl <;>
        simp [cardinal_form, hu1, hu2]
    have hrec := ih b (hrest b (by simp)) (fun n hn => hrest n (by simp [hn]))
    simp only [cardinal_loop, hwrite, hrec]
    simp [consecutive_pairs]

/-- C1: a deferred cardinal-direction constraint whose Line context is a real
(non-sentinel) Line and whose quoted chain lists N station names (N ≥ 2) all
present on that Line compiles to exactly N−1 equality constraints, one per
consecutive pair, in the algebraic form matching the keyword (`vertical`
equates solved X, `horizontal` solved Y, `up-right` emits
(X_A − X_B) = −(Y_A − Y_B), `down-right` (X_A − X_B) = (Y_A − Y_B));
a chain with fewer than two names fails. -/
theorem cardinal_chain_emits_consecutive_constraints (ct : Str)
    (lines : List (Str × Line)) (L : Str) (line : Line)
    (input_line_rest chain t : Str) (no : Nat) (names : List Str)
    (hct : ct = "vertical".data ∨ ct = "horizontal".data ∨ ct = "up-right".data
      ∨ ct = "down-right".data)
    (hL : L ≠ "_MULTI".data) (hlook : dictLookup lines L = some line)
    (hq : consume_double_quoted input_line_rest = some (chain, t))
    (hnames : names = (pySplitChar ',' chain).map pyStrip) :
    (2 ≤ names.length → (∀ n ∈ names, (dictLookup line.stations n).isSome) →
      process_cardinal_direction_constraint ct lines input_line_rest (some L) no
        = .ok ((consecutive_pairs names).map
            (fun p => cardinal_form ct (uidOf line p.1) (uidOf line p.2)))
      ∧ ((consecutive_pairs names).map
            (fun p => cardinal_form ct (uidOf line p.1) (uidOf line p.2))).length
          = names.length - 1)
    ∧ (names.length < 2 →
        process_cardinal_direction_constraint ct lines input_line_rest (some L) no
          = .error (.fewerThanTwo no)) := by
  constructor
  · intro hlen hall
    constructor
    · cases hns : names with
      | nil => rw [hns] at hlen; simp at hlen
      | cons s0 srest =>
        rw [hns] at hlen hall
        have hlt : ¬ (s0 :: srest).length < 2 := by omega
        have hloop := cardinal_loop_ok ct lines L line no hct hL hlook srest s0
          (hall s0 (by simp)) (fun n hn => hall n (by simp [hn]))
        simp only [process_cardinal_direction_constraint, hq, ← hnames, hns,
          if_neg hlt, hloop]
    · rw [List.length_map, consecutive_pairs_length]
  · intro hlen
    cases hns : names with
    | nil =>
      simp only [process_cardinal_direction_constraint, hq, ← hnames, hns]
      simp
    | cons s0 srest =>
      rw [hns] at hlen
      simp only [process_cardinal_direction_constraint, hq, ← hnames, hns, if_pos hlen]

theorem cardinal_chain_emits_consecutive_constraints_witness :
    process_cardinal_direction_constraint "vertical".data linesEx
        "vertical \"A, B, C\"".data (some "l1".data) 11
      = .ok ((consecutive_pairs ["A".data, "B".data, "C".data]).map
          (fun p => cardinal_form "vertical".data (uidOf lineEx p.1) (uidOf lineEx p.2)))
    ∧ ((consecutive_pairs ["A".data, "B".data, "C".data]).map
          (fun p => cardinal_form "vertical".data (uidOf lineEx p.1) (uidOf lineEx p.2))).length
        = 2 := by
  exact (cardinal_chain_emits_consecutive_constraints "vertical".data linesEx "l1".data
    lineEx _ "A, B, C".data [] 11 ["A".data, "B".data, "C".data]
    (Or.inl rfl) (by decide) (by decide) (by decide) (by decide)).1 (by decide) (by decide)

end MiniMetro

namespace MiniMetro

theorem has_orphan_of_exists (l : Line)
    (h : ∃ q ∈ l.stations, stationIsOrphan l.edges q.2 = true) :
    ∃ nm, l.has_orphan_stations = (true, some nm)
      ∧ ∃ q ∈ l.stations, q.2.name = nm ∧ stationIsOrphan l.edges q.2 = true := by
  have hsome : (l.stations.find? (fun p => stationIsOrphan l.edges p.2)).isSome := by
    rw [List.find?_isSome]
    rcases h with ⟨q, hq, horph⟩
    exact ⟨q, hq, horph⟩
  obtain ⟨p0, hp0⟩ := Option.isSome_iff_exists.mp hsome
  have hpred := List.find?_some hp0
  refine ⟨p0.2.name, ?_, p0, List.mem_of_find?_eq_some hp0, rfl, hpred⟩
  unfold Line.has_orphan_stations
  rw [hp0]

theorem no_orphan_of_forall (l : Line)
    (h : ¬ ∃ q ∈ l.stations, stationIsOrphan l.edges q.2 = true) :
    l.has_orphan_stations = (false, none) := by
  have hnone : l.stations.find? (fun p => stationIsOrphan l.edges p.2) = none := by
    rw [List.find?_eq_none]
    intro q hq
    by_contra horph
    exact h ⟨q, hq, by simpa using horph⟩
  unfold Line.has_orphan_stations
  rw [hnone]

theorem check_no_orphans_error (lines : List (Str × Line))
    (h : ∃ pr ∈ lines, ∃ q ∈ pr.2.stations, stationIsOrphan pr.2.edges q.2 = true) :
    ∃ L S, check_no_orphans lines = .error (L, some S)
      ∧ ∃ pr ∈ lines, pr.2.name = L ∧ ∃ q ∈ pr.2.stations, q.2.name = S
          ∧ stationIsOrphan pr.2.edges q.2 = true := by
  induction lines with
  | nil => rcases h with ⟨pr, hpr, _⟩; exact absurd hpr (List.not_mem_nil pr)
  | cons hd tl ih =>
    obtain ⟨k, l⟩ := hd
    by_cases hex : ∃ q ∈ l.stations, stationIsOrphan l.edges q.2 = true
    · obtain ⟨nm, horph, q, hq, hnm, hiso⟩ := has_orphan_of_exists l hex
      refine ⟨l.name, nm, ?_, (k, l), by simp, rfl, q, hq, hnm, hiso⟩
      simp [check_no_orphans, horph]
    · have hno := no_orphan_of_forall l hex
      have htl : ∃ pr ∈ tl, ∃ q ∈ pr.2.stations, stationIsOrphan pr.2.edges q.2 = true := by
        rcases h with ⟨pr, hpr, hq⟩
        rcases List.mem_cons.mp hpr with rfl | hpr2
        · exact absurd hq hex
        · exact ⟨pr, hpr2, hq⟩
      obtain ⟨L, S, hcheck, pr, hpr, rest⟩ := ih htl
      exact ⟨L, S, by simp [check_no_orphans, hno, hcheck], pr, List.mem_cons.mpr (Or.inr hpr), rest⟩

/-- C6: once the full input has been read, if any Station of any Line has no
incident edge, the run aborts with a diagnostic naming that Station and its
Line — `parse_data` (and hence the whole `generate_map` pipeline, before any
constraint compilation happens) returns exactly that orphan error, even when
every other Station is connected. -/
theorem orphan_station_aborts_before_compilation (nm : NaptanMap) (input : List Str)
    (st : PState) (hread : read_data nm input = .ok st)
    (horph : ∃ pr ∈ st.lines, ∃ q ∈ pr.2.stations, stationIsOrphan pr.2.edges q.2 = true) :
    ∃ L S, parse_data nm input = .error (.orphan L (some S))
      ∧ generate_map nm input = .error (.orphan L (some S))
      ∧ ∃ pr ∈ st.lines, pr.2.name = L ∧ ∃ q ∈ pr.2.stations, q.2.name = S
          ∧ stationIsOrphan pr.2.edges q.2 = true := by
  obtain ⟨L, S, hcheck, hprops⟩ := check_no_orphans_error st.lines horph
  have hparse : parse_data nm input = .error (.orphan L (some S)) := by
    simp only [parse_data, hread, hcheck]
  exact ⟨L, S, hparse, by simp only [generate_map, hparse], hprops⟩

theorem orphan_station_aborts_before_compilation_witness :
    ∃ L S, parse_data nmEx
          ["line l1".data, "station \"A\" 0 0".data, "station \"B\" 1 1".data,
           "station \"C\" 2 2".data, "edges \"A, B\"".data]
        = .error (.orphan L (some S))
      ∧ generate_map nmEx
          ["line l1".data, "station \"A\" 0 0".data, "station \"B\" 1 1".data,
           "station \"C\" 2 2".data, "edges \"A, B\"".data]
        = .error (.orphan L (some S))
      ∧ ∃ pr ∈ linesEx, pr.2.name = L ∧ ∃ q ∈ pr.2.stations, q.2.name = S
          ∧ stationIsOrphan pr.2.edges q.2 = true := by
  exact orphan_station_aborts_before_compilation nmEx _
    { current := some "l1".data, lines := linesEx, constraints := [] }
    (by decide) (by decide)

end MiniMetro

namespace MiniMetro

theorem isPrefixOf_cons_of_ne (a b : Char) (as bs : Str) (h : a ≠ b) :
    (a :: as).isPrefixOf (b :: bs) = false := by
  show ((a == b) && as.isPrefixOf bs) = false
  rw [beq_eq_false_iff_ne.mpr h, Bool.false_and]

theorem eq_cons_of_isPrefixOf_cons (c : Char) (p s : Str)
    (h : (c :: p).isPrefixOf s = true) : ∃ u, s = c :: u := by
  cases s with
  | nil => exact absurd h (by simp [List.isPrefixOf])
  | cons b bs =>
    have hb : ((c == b) && p.isPrefixOf bs) = true := h
    have := (Bool.and_eq_true _ _).mp hb
    exact ⟨bs, by rw [eq_of_beq this.1]⟩

theorem strData_not_isPrefixOf_cons (lit : String) (c : Char) (u : Str)
    (h : lit.data.isPrefixOf (c :: u) = false) :
    ¬ (lit.data.isPrefixOf (c :: u) = true) := by
  rw [h]
  simp

/-- C9: for every sanitized statement beginning with a cardinal alignment
keyword, read_data defers the text obtained by substring replacement of
`up-left` by `down-right` and then `down-left` by `up-right` over the whole
statement — so occurrences of those substrings inside the double-quoted
station chain are rewritten too (exhibited by the witness). -/
theorem cardinal_normalization_replaces_whole_statement (nm : NaptanMap) (no : Nat)
    (st : PState) (raw : Str)
    (hkw : startsWithAny (sanitize_line raw) cardinal_keywords = true) :
    read_data_step nm no st raw
      = .ok { st with constraints :=
          st.constraints ++ [(normalize_cardinal (sanitize_line raw), st.current, no)] } := by
  have hany := hkw
  simp only [startsWithAny, cardinal_keywords, List.any_eq_true, List.mem_cons,
    List.not_mem_nil] at hkw
  obtain ⟨kw, hkwmem, hpre⟩ := hkw
  have hshape : ∃ c u, sanitize_line raw = c :: u
      ∧ (c = 'v' ∨ c = 'h' ∨ c = 'u' ∨ c = 'd') := by
    rcases hkwmem with rfl | rfl | rfl | rfl | rfl | rfl | hfalse
    · obtain ⟨u, hu⟩ := eq_cons_of_isPrefixOf_cons 'v' _ _ hpre
      exact ⟨'v', u, hu, Or.inl rfl⟩
    · obtain ⟨u, hu⟩ := eq_cons_of_isPrefixOf_cons 'h' _ _ hpre
      exact ⟨'h', u, hu, Or.inr (Or.inl rfl)⟩
    · obtain ⟨u, hu⟩ := eq_cons_of_isPrefixOf_cons 'u' _ _ hpre
      exact ⟨'u', u, hu, Or.inr (Or.inr (Or.inl rfl))⟩
    · obtain ⟨u, hu⟩ := eq_cons_of_isPrefixOf_cons 'u' _ _ hpre
      exact ⟨'u', u, hu, Or.inr (Or.inr (Or.inl rfl))⟩
    · obtain ⟨u, hu⟩ := eq_cons_of_isPrefixOf_cons 'd' _ _ hpre
      exact ⟨'d', u, hu, Or.inr (Or.inr (Or.inr rfl))⟩
    · obtain ⟨u, hu⟩ := eq_cons_of_isPrefixOf_cons 'd' _ _ hpre
      exact ⟨'d', u, hu, Or.inr (Or.inr (Or.inr rfl))⟩
    · exact hfalse.elim
  obtain ⟨c, u, hsu, hc⟩ := hshape
  simp only [read_data_step]
  rw [hsu] at hany ⊢
  rw [if_neg (show ¬ (c :: u = ([] : Str)) by simp)]
  rcases hc with rfl | rfl | rfl | rfl <;>
    rw [if_neg (strData_not_isPrefixOf_cons "line" _ u
          (isPrefixOf_cons_of_ne 'l' _ "ine".data u (by decide))),
        if_neg (strData_not_isPrefixOf_cons "station" _ u
          (isPrefixOf_cons_of_ne 's' _ "tation".data u (by decide))),
        if_neg (strData_not_isPrefixOf_cons "edges" _ u
          (isPrefixOf_cons_of_ne 'e' _ "dges".data u (by decide))),
        if_neg (strData_not_isPrefixOf_cons "curve" _ u
          (isPrefixOf_cons_of_ne 'c' _ "urve".data u (by decide))),
        if_neg (strData_not_isPrefixOf_cons "multi-line" _ u
          (isPrefixOf_cons_of_ne 'm' _ "ulti-line".data u (by decide))),
        if_pos hany]

end MiniMetro

namespace MiniMetro

theorem cardinal_normalization_replaces_whole_statement_witness :
    read_data_step nmEx 3
        { current := some "l1".data, lines := linesEx, constraints := [] }
        "up-left \"X up-left Y, Z\"".data
      = .ok { current := some "l1".data, lines := linesEx,
              constraints :=
                [("down-right \"X down-right Y, Z\"".data, some "l1".data, 3)] } := by
  exact (cardinal_normalization_replaces_whole_statement nmEx 3
    { current := some "l1".data, lines := linesEx, constraints := [] }
    "up-left \"X up-left Y, Z\"".data (by decide)).trans (by decide)

end MiniMetro

namespace MiniMetro

theorem create_new_line_error_shape (no : Nat) (s : Str) (lines : List (Str × Line))
    (e : ParseError) (h : create_new_line no s lines = .error e) :
    (∃ n, e = .lineRedefinition n) ∨ errorLineNo e = some no := by
  simp only [create_new_line] at h
  repeat' split at h
  all_goals first
    | exact Except.noConfusion h
    | (injection h with h2; subst h2; simp [errorLineNo])

theorem create_new_station_error_shape (nm : NaptanMap) (no : Nat) (s : Str)
    (cur : Option Str) (lines : List (Str × Line)) (e : ParseError)
    (h : create_new_station nm no s cur lines = .error e) :
    (∃ n, e = .noNaptan n) ∨ (∃ n, e = .lineKeyError n) ∨ errorLineNo e = some no := by
  unfold create_new_station at h
  repeat' split at h
  all_goals first
    | exact Except.noConfusion h
    | (injection h with h2; subst h2; simp [errorLineNo])

theorem add_edge_error_shape (l : Line) (a b : Str) (no : Nat) (e : NetError)
    (h : l.add_edge a b no = .error e) : netErrorLineNo e = no := by
  unfold Line.add_edge at h
  repeat' split at h
  all_goals first
    | exact Except.noConfusion h
    | (injection h with h2; subst h2; simp [netErrorLineNo])

theorem edges_loop_error_shape (no : Nat) :
    ∀ (rest : List Str) (s0 : Str) (L : Line) (e : NetError),
      edges_loop no L s0 rest = .error e → netErrorLineNo e = no := by
  intro rest
  induction rest with
  | nil => intro s0 L e h; exact Except.noConfusion h
  | cons b t ih =>
    intro s0 L e h
    unfold edges_loop at h
    split at h
    · rename_i e1 heq
      injection h with h2
      subst h2
      exact add_edge_error_shape L s0 b no e1 heq
    · exact ih b _ e h

theorem add_edges_error_shape (no : Nat) (s : Str) (cur : Option Str)
    (lines : List (Str × Line)) (e : ParseError)
    (h : add_edges no s cur lines = .error e) :
    (∃ n, e = .lineKeyError n) ∨ errorLineNo e = some no := by
  simp only [add_edges] at h
  repeat' split at h
  all_goals first
    | exact Except.noConfusion h
    | (injection h with h2; subst h2; simp [errorLineNo]; done)
    | (rename_i e1 heq
       injection h with h2
       subst h2
       simp [errorLineNo, edges_loop_error_shape no _ _ _ _ heq])

end MiniMetro

namespace MiniMetro

theorem validate_curve_type_error_shape (no : Nat) (rest old : Str) (e : ParseError)
    (h : validate_curve_type no rest old = .error e) :
    e = .curveTypeIndexError ∨ errorLineNo e = some no := by
  simp only [validate_curve_type] at h
  repeat' split at h
  all_goals first
    | exact Except.noConfusion h
    | (injection h with h2; subst h2; simp [errorLineNo]; done)

theorem add_curve_error_netno (l : Line) (a b ct : Str) (no : Nat) (e : NetError)
    (h : l.add_curve a b ct no = .error e) : netErrorLineNo e = no := by
  unfold Line.add_curve at h
  repeat' split at h
  all_goals first
    | exact Except.noConfusion h
    | (injection h with h2; subst h2; simp [netErrorLineNo]; done)

theorem add_curve_error_shape (no : Nat) (s : Str) (cur : Option Str)
    (lines : List (Str × Line)) (e : ParseError)
    (h : add_curve no s cur lines = .error e) :
    e = .curveTypeIndexError ∨ (∃ n, e = .lineKeyError n) ∨ errorLineNo e = some no := by
  simp only [add_curve] at h
  repeat' split at h
  all_goals first
    | exact Except.noConfusion h
    | (injection h with h2; subst h2; simp [errorLineNo]; done)
    | (rename_i e1 heq
       injection h with h2
       subst h2
       first
         | (simp [errorLineNo, add_curve_error_netno _ _ _ _ _ _ heq]; done)
         | (rcases validate_curve_type_error_shape _ _ _ _ heq with h3 | h3
            · exact Or.inl h3
            · exact Or.inr (Or.inr h3)))

theorem dropWhile_head_not (p : Char → Bool) :
    ∀ (l : Str) (c : Char) (t : Str), l.dropWhile p = c :: t → p c = false := by
  intro l
  induction l with
  | nil => intro c t h; exact List.noConfusion h
  | cons a as ih =>
    intro c t h
    by_cases hp : p a
    · rw [List.dropWhile_cons_of_pos hp] at h
      exact ih c t h
    · rw [List.dropWhile_cons_of_neg hp] at h
      obtain ⟨rfl, _⟩ := List.cons.inj h
      exact Bool.of_not_eq_true hp

theorem pyStrip_getLast_not_ws (s : Str) (c : Char)
    (h : (pyStrip s).getLast? = some c) : Char.isWhitespace c = false := by
  unfold pyStrip at h
  rw [List.getLast?_reverse] at h
  cases hh : ((s.dropWhile Char.isWhitespace).reverse.dropWhile Char.isWhitespace) with
  | nil => rw [hh] at h; exact Option.noConfusion h
  | cons d t =>
    rw [hh] at h
    simp only [List.head?_cons, Option.some.injEq] at h
    subst h
    exact dropWhile_head_not Char.isWhitespace _ _ t hh

end MiniMetro

namespace MiniMetro

theorem getLast_append_ne_nil (l1 l2 : Str) (h : l2 ≠ []) :
    (l1 ++ l2).getLast? = l2.getLast? := by
  rw [List.getLast?_append]
  cases hl : l2.getLast? with
  | none => exact absurd (List.getLast?_eq_none_iff.mp hl) h
  | some a => rfl

theorem mem_of_getLast_some (l : Str) (a : Char) (h : l.getLast? = some a) : a ∈ l := by
  induction l with
  | nil => exact Option.noConfusion h
  | cons b t ih =>
    cases t with
    | nil =>
      simp only [List.getLast?_singleton, Option.some.injEq] at h
      simp [h]
    | cons c u =>
      rw [List.getLast?_cons_cons] at h
      exact List.mem_cons.mpr (Or.inr (ih h))

theorem suffix_getLast (l2 l : Str) (hs : l2 <:+ l) (h : l2 ≠ []) :
    l2.getLast? = l.getLast? := by
  obtain ⟨pre, rfl⟩ := hs
  exact (getLast_append_ne_nil pre l2 h).symm

theorem consume_rest_suffix (s a rest : Str)
    (h : consume_double_quoted s = some (a, rest)) : rest <:+ s := by
  simp only [consume_double_quoted] at h
  split at h
  · exact Option.noConfusion h
  · rename_i c1 rest1 heq1
    split at h
    · exact Option.noConfusion h
    · rename_i c2 rest2 heq2
      injection h with h2
      obtain ⟨-, h3⟩ := Prod.mk.inj h2
      subst h3
      have hsub1 : c1 :: rest1 <:+ s := heq1 ▸ List.dropWhile_suffix _
      have hsub2 : rest1 <:+ s :=
        List.IsSuffix.trans (List.suffix_cons c1 rest1) hsub1
      have hsub3 : c2 :: rest2 <:+ rest1 := heq2 ▸ List.dropWhile_suffix _
      have hsub4 : rest2 <:+ rest1 :=
        List.IsSuffix.trans (List.suffix_cons c2 rest2) hsub3
      exact List.IsSuffix.trans hsub4 hsub2

theorem splitPred_ne_nil (p : Char → Bool) (l : Str) : splitPred p l ≠ [] := by
  cases l with
  | nil => simp [splitPred]
  | cons a as =>
    by_cases hp : p a
    · simp [splitPred, hp]
    · simp only [splitPred, hp]
      cases splitPred p as with
      | nil => simp
      | cons g gs => simp

theorem pySplitWs_ne_nil_of_mem (s : Str) (c : Char) (hc : c ∈ s)
    (hw : Char.isWhitespace c = false) : pySplitWs s ≠ [] := by
  induction s with
  | nil => exact absurd hc (List.not_mem_nil c)
  | cons a as ih =>
    by_cases hp : Char.isWhitespace a
    · have hca : c ≠ a := by
        rintro rfl
        rw [hp] at hw
        exact Bool.noConfusion hw
      have hcas : c ∈ as := by
        rcases List.mem_cons.mp hc with rfl | h
        · exact absurd rfl hca
        · exact h
      have : pySplitWs (a :: as) = pySplitWs as := by
        simp [pySplitWs, splitPred, hp]
      rw [this]
      exact ih hcas
    · unfold pySplitWs splitPred
      rw [if_neg hp]
      cases hsp : splitPred Char.isWhitespace as with
      | nil => exact absurd hsp (splitPred_ne_nil _ _)
      | cons g gs => simp

end MiniMetro

namespace MiniMetro

theorem validate_indexError_inv (no : Nat) (rest old : Str)
    (h : validate_curve_type no rest old = .error .curveTypeIndexError) :
    pySplitWs rest = [] := by
  simp only [validate_curve_type] at h
  split at h
  · assumption
  · split at h
    · exact Except.noConfusion h
    · split at h
      · injection h with h2
        exact absurd h2.symm (by simp)
      · exact Except.noConfusion h

theorem sanitize_rest_splitWs_ne_nil (raw a rest : Str)
    (hq : consume_double_quoted (sanitize_line raw) = some (a, rest))
    (hne : rest ≠ []) : pySplitWs rest ≠ [] := by
  have hsuf : rest <:+ sanitize_line raw := consume_rest_suffix _ _ _ hq
  have hlast : rest.getLast? = (sanitize_line raw).getLast? :=
    suffix_getLast _ _ hsuf hne
  obtain ⟨c, hc⟩ : ∃ c, rest.getLast? = some c := by
    cases hl : rest.getLast? with
    | none => exact absurd (List.getLast?_eq_none_iff.mp hl) hne
    | some c => exact ⟨c, rfl⟩
  have hcs : (sanitize_line raw).getLast? = some c := hlast ▸ hc
  have hw : Char.isWhitespace c = false :=
    pyStrip_getLast_not_ws (raw.takeWhile (fun ch => ch ≠ '#')) c hcs
  exact pySplitWs_ne_nil_of_mem rest c (mem_of_getLast_some rest c hc) hw

theorem add_curve_sanitized_error_shape (no : Nat) (raw : Str) (cur : Option Str)
    (lines : List (Str × Line)) (e : ParseError)
    (h : add_curve no (sanitize_line raw) cur lines = .error e) :
    (∃ n, e = .lineKeyError n) ∨ errorLineNo e = some no := by
  rcases add_curve_error_shape no (sanitize_line raw) cur lines e h with h1 | h1 | h1
  · subst h1
    exfalso
    simp only [add_curve] at h
    split at h
    · exact absurd h (by simp [errorLineNo])
    · split at h
      · exact absurd h (by simp)
      · rename_i a rest hq
        split at h
        · exact absurd h (by simp)
        · rename_i hrne
          split at h
          · rename_i e1 heq
            injection h with h2
            subst h2
            have := validate_indexError_inv _ _ _ heq
            exact sanitize_rest_splitWs_ne_nil raw a rest hq hrne this
          · repeat' split at h
            all_goals first
              | exact Except.noConfusion h
              | (injection h with h2; exact absurd h2.symm (by simp))
  · exact Or.inl h1
  · exact Or.inr h1

end MiniMetro

namespace MiniMetro

theorem read_data_step_error_shape (nm : NaptanMap) (no : Nat) (st : PState)
    (raw : Str) (e : ParseError) (h : read_data_step nm no st raw = .error e) :
    (∃ n, e = .lineRedefinition n) ∨ (∃ n, e = .noNaptan n) ∨ (∃ n, e = .lineKeyError n)
      ∨ errorLineNo e = some no := by
  simp only [read_data_step] at h
  split at h
  · exact Except.noConfusion h
  split at h
  · split at h
    · rename_i e1 heq
      injection h with h2
      subst h2
      rcases create_new_line_error_shape _ _ _ _ heq with h3 | h3
      · exact Or.inl h3
      · exact Or.inr (Or.inr (Or.inr h3))
    · exact Except.noConfusion h
  split at h
  · split at h
    · rename_i e1 heq
      injection h with h2
      subst h2
      rcases create_new_station_error_shape _ _ _ _ _ _ heq with h3 | h3 | h3
      · exact Or.inr (Or.inl h3)
      · exact Or.inr (Or.inr (Or.inl h3))
      · exact Or.inr (Or.inr (Or.inr h3))
    · exact Except.noConfusion h
  split at h
  · split at h
    · rename_i e1 heq
      injection h with h2
      subst h2
      rcases add_edges_error_shape _ _ _ _ _ heq with h3 | h3
      · exact Or.inr (Or.inr (Or.inl h3))
      · exact Or.inr (Or.inr (Or.inr h3))
    · exact Except.noConfusion h
  split at h
  · split at h
    · rename_i e1 heq
      injection h with h2
      subst h2
      rcases add_curve_sanitized_error_shape _ _ _ _ _ heq with h3 | h3
      · exact Or.inr (Or.inr (Or.inl h3))
      · exact Or.inr (Or.inr (Or.inr h3))
    · exact Except.noConfusion h
  split at h
  · exact Except.noConfusion h
  split at h
  · exact Except.noConfusion h
  split at h
  · exact Except.noConfusion h
  · injection h with h2
    subst h2
    exact Or.inr (Or.inr (Or.inr (by simp [errorLineNo])))

end MiniMetro

namespace MiniMetro

theorem read_data_from_error_shape (nm : NaptanMap) :
    ∀ (input : List Str) (k : Nat) (st : PState) (e : ParseError),
      read_data_from nm k st input = .error e →
      (∃ n, e = .lineRedefinition n) ∨ (∃ n, e = .noNaptan n) ∨ (∃ n, e = .lineKeyError n)
        ∨ ∃ j, ∃ hj : j < input.length, ∃ st',
            read_data_from nm k st (input.take j) = .ok st'
            ∧ read_data_step nm (k + j + 1) st' (input.get ⟨j, hj⟩) = .error e
            ∧ errorLineNo e = some (k + j + 1) := by
  intro input
  induction input with
  | nil => intro k st e h; exact Except.noConfusion h
  | cons raw rest ih =>
    intro k st e h
    unfold read_data_from at h
    split at h
    · rename_i e1 heq
      injection h with h2
      subst h2
      rcases read_data_step_error_shape nm (k + 1) st raw _ heq with h3 | h3 | h3 | h3
      · exact Or.inl h3
      · exact Or.inr (Or.inl h3)
      · exact Or.inr (Or.inr (Or.inl h3))
      · refine Or.inr (Or.inr (Or.inr ⟨0, by simp, st, rfl, ?_, ?_⟩))
        · simpa using heq
        · simpa using h3
    · rename_i st2 heq
      rcases ih (k + 1) st2 e h with h3 | h3 | h3 | h3
      · exact Or.inl h3
      · exact Or.inr (Or.inl h3)
      · exact Or.inr (Or.inr (Or.inl h3))
      · obtain ⟨j, hj, st', hok, hstep, hno⟩ := h3
        have hn : k + 1 + j + 1 = k + (j + 1) + 1 := by omega
        rw [hn] at hstep hno
        refine Or.inr (Or.inr (Or.inr ⟨j + 1, by simpa using Nat.succ_lt_succ hj, st', ?_, ?_, hno⟩))
        · show read_data_from nm k st (raw :: rest.take j) = .ok st'
          unfold read_data_from
          rw [heq]
          exact hok
        · exact hstep

/-- C4 amended: every failure produced by `read_data` carries the 1-based
source line number of the offending raw input line (the first line whose
processing step fails), except three diagnostics that omit it: the
Line-redefinition message (carries only the line name), the identifier
provider's no-mapping KeyError (carries only the station name), and the raw
dict KeyError raised when a station/edges/curve statement is processed in
multi-line context. -/
theorem parse_failures_carry_offending_line_number (nm : NaptanMap) (input : List Str)
    (e : ParseError) (h : read_data nm input = .error e) :
    (∃ n, e = .lineRedefinition n) ∨ (∃ n, e = .noNaptan n) ∨ (∃ n, e = .lineKeyError n)
      ∨ ∃ j, ∃ hj : j < input.length, ∃ st',
          read_data_from nm 0 { current := none, lines := [], constraints := [] }
              (input.take j) = .ok st'
          ∧ read_data_step nm (j + 1) st' (input.get ⟨j, hj⟩) = .error e
          ∧ errorLineNo e = some (j + 1) := by
  rcases read_data_from_error_shape nm input 0
      { current := none, lines := [], constraints := [] } e h with h3 | h3 | h3 | h3
  · exact Or.inl h3
  · exact Or.inr (Or.inl h3)
  · exact Or.inr (Or.inr (Or.inl h3))
  · obtain ⟨j, hj, st', hok, hstep, hno⟩ := h3
    rw [Nat.zero_add] at hstep hno
    exact Or.inr (Or.inr (Or.inr ⟨j, hj, st', hok, hstep, hno⟩))

/-- C4 counterexample: redefining Line `a` fails with the `lineRedefinition`
diagnostic, which carries no source line number, refuting the claim that
every statement-handler failure (in particular the duplicate-Line one)
includes the 1-based source line number. -/
theorem line_redefinition_error_lacks_line_number_cex :
    read_data nmEx ["line a".data, "line a".data] = .error (.lineRedefinition "a".data)
    ∧ errorLineNo (.lineRedefinition "a".data) = none := by decide

theorem parse_failures_carry_offending_line_number_witness :
    (∃ n, (ParseError.beforeCurrentLine 1 "station \"A\" 1 2".data) = .lineRedefinition n)
    ∨ (∃ n, (ParseError.beforeCurrentLine 1 "station \"A\" 1 2".data) = .noNaptan n)
    ∨ (∃ n, (ParseError.beforeCurrentLine 1 "station \"A\" 1 2".data) = .lineKeyError n)
    ∨ ∃ j, ∃ hj : j < (["station \"A\" 1 2".data] : List Str).length, ∃ st',
        read_data_from nmEx 0 { current := none, lines := [], constraints := [] }
            ((["station \"A\" 1 2".data] : List Str).take j) = .ok st'
        ∧ read_data_step nmEx (j + 1) st'
            ((["station \"A\" 1 2".data] : List Str).get ⟨j, hj⟩)
            = .error (.beforeCurrentLine 1 "station \"A\" 1 2".data)
        ∧ errorLineNo (.beforeCurrentLine 1 "station \"A\" 1 2".data) = some (j + 1) := by
  exact parse_failures_carry_offending_line_number nmEx _ _ (by decide)

end MiniMetro

namespace MiniMetro

/-- C8 counterexample: a well-formed input (parses and passes validation) in
which station S1 on line `a` has naptan `b_c` and station S2 on line `a_b`
has naptan `c` gives both stations the stable identifier `a_b_c`: the
compiled station-identifier domain contains a duplicate, refuting the
uniqueness claim. -/
theorem station_identifier_collision_cex :
    parse_data nmC8 inputC8 = .ok (linesC8, [])
    ∧ station_identifiers linesC8 = ["\"a_b_c\"".data, "\"a_b_c\"".data]
    ∧ ¬ (station_identifiers linesC8).Nodup := by
  refine ⟨by decide, by decide, ?_⟩
  intro hnd
  rw [show station_identifiers linesC8 = ["\"a_b_c\"".data, "\"a_b_c\"".data] from by decide] at hnd
  simp [List.nodup_cons] at hnd

theorem underscore_split_inj :
    ∀ (a c b d : Str), '_' ∉ a → '_' ∉ c →
      a ++ '_' :: b = c ++ '_' :: d → a = c ∧ b = d := by
  intro a
  induction a with
  | nil =>
    intro c b d _ hc h
    cases c with
    | nil => simpa using h
    | cons ch cs =>
      simp only [List.nil_append, List.cons_append, List.cons.injEq] at h
      exact absurd (h.1 ▸ List.mem_cons_self ch cs) hc
  | cons ah as ih =>
    intro c b d ha hc h
    cases c with
    | nil =>
      simp only [List.cons_append, List.nil_append, List.cons.injEq] at h
      exact absurd (h.1 ▸ List.mem_cons_self ah as) ha
    | cons ch cs =>
      simp only [List.cons_append, List.cons.injEq] at h
      obtain ⟨rfl, h2⟩ := h
      have ha' : '_' ∉ as := fun hm => ha (List.mem_cons.mpr (Or.inr hm))
      have hc' : '_' ∉ cs := fun hm => hc (List.mem_cons.mpr (Or.inr hm))
      obtain ⟨rfl, rfl⟩ := ih cs b d ha' hc' h2
      exact ⟨rfl, rfl⟩

theorem mem_station_identifiers (lines : List (Str × Line)) (x : Str) :
    x ∈ station_identifiers lines ↔
      ∃ pr ∈ lines, ∃ q ∈ pr.2.stations, x = '"' :: (q.2.unique_id ++ ['"']) := by
  induction lines with
  | nil =>
    constructor
    · intro h
      exact absurd h (List.not_mem_nil x)
    · rintro ⟨pr, hpr, -⟩
      exact absurd hpr (List.not_mem_nil pr)
  | cons hd tl ih =>
    simp only [station_identifiers, List.mem_append, List.mem_map, ih, List.mem_cons]
    constructor
    · rintro (⟨q, hq, rfl⟩ | ⟨pr, hpr, q, hq, rfl⟩)
      · exact ⟨hd, Or.inl rfl, q, hq, rfl⟩
      · exact ⟨pr, Or.inr hpr, q, hq, rfl⟩
    · rintro ⟨pr, hpr | hpr, q, hq, rfl⟩
      · subst hpr
        exact Or.inl ⟨q, hq, rfl⟩
      · exact Or.inr ⟨pr, hpr, q, hq, rfl⟩

end MiniMetro

namespace MiniMetro

/-- C8 amended: the stable identifier is the bare concatenation
lineName ++ '_' ++ naptan and is not unique for all well-formed inputs; it
is unique whenever Line names are pairwise distinct and underscore-free,
each station's line field names its owning Line, and the identifier provider
assigns distinct naptans within each Line. -/
theorem station_identifiers_nodup_of_separated (lines : List (Str × Line))
    (hnames : (lines.map (fun pr => pr.2.name)).Nodup)
    (hline : ∀ pr ∈ lines, ∀ q ∈ pr.2.stations, q.2.line = pr.2.name)
    (hus : ∀ pr ∈ lines, '_' ∉ pr.2.name)
    (hnap : ∀ pr ∈ lines, (pr.2.stations.map (fun q => q.2.naptan)).Nodup) :
    (station_identifiers lines).Nodup := by
  induction lines with
  | nil => simp [station_identifiers]
  | cons hd tl ih =>
    simp only [station_identifiers]
    rw [List.nodup_append]
    have hmemhd : hd ∈ hd :: tl := List.mem_cons_self hd tl
    refine ⟨?_, ?_, ?_⟩
    · have hnd : (hd.2.stations.map (fun q => q.2.naptan)).Nodup := hnap hd hmemhd
      refine List.Nodup.map_on ?_ hnd.of_map
      intro x hx y hy hxy
      have hlx : x.2.line = hd.2.name := hline hd hmemhd x hx
      have hly : y.2.line = hd.2.name := hline hd hmemhd y hy
      have huid : x.2.unique_id = y.2.unique_id := by
        have h1 := List.cons.inj hxy
        exact List.append_cancel_right h1.2
      unfold Station.unique_id at huid
      rw [hlx, hly] at huid
      have hnapeq : x.2.naptan = y.2.naptan := by
        have := List.append_cancel_left huid
        exact (List.cons.inj this).2
      exact List.inj_on_of_nodup_map hnd hx hy hnapeq
    · exact ih (List.nodup_cons.mp hnames).2
        (fun pr hpr => hline pr (List.mem_cons.mpr (Or.inr hpr)))
        (fun pr hpr => hus pr (List.mem_cons.mpr (Or.inr hpr)))
        (fun pr hpr => hnap pr (List.mem_cons.mpr (Or.inr hpr)))
    · intro x hx1 hx2
      obtain ⟨q, hq, rfl⟩ := List.mem_map.mp hx1
      obtain ⟨pr, hpr, q', hq', heq⟩ := (mem_station_identifiers tl _).mp hx2
      have h1 := List.cons.inj heq
      have huid : q.2.unique_id = q'.2.unique_id := List.append_cancel_right h1.2
      unfold Station.unique_id at huid
      rw [hline hd hmemhd q hq, hline pr (List.mem_cons.mpr (Or.inr hpr)) q' hq'] at huid
      have hnm := (underscore_split_inj hd.2.name pr.2.name _ _
        (hus hd hmemhd) (hus pr (List.mem_cons.mpr (Or.inr hpr))) huid).1
      have hnodup := List.nodup_cons.mp hnames
      refine hnodup.1 ?_
      show hd.2.name ∈ List.map (fun pr => pr.2.name) tl
      rw [hnm]
      exact List.mem_map.mpr ⟨pr, hpr, rfl⟩

theorem station_identifiers_nodup_of_separated_witness :
    (station_identifiers linesEx).Nodup := by
  exact station_identifiers_nodup_of_separated linesEx
    (by decide) (by decide) (by decide) (by decide)

end MiniMetro
